import Mathlib

/-! Verification of the page-selection parsers and page-assembly operations
of the PDF editor application in `app.py`.  This file shallowly embeds the
core logic: the two range parsers `parse_page_ranges` (set mode) and
`parse_reorder` (sequence mode), the page-assembly helpers `delete_pages`,
`rotate_pages`, `encrypt_pdf`, and the module-level Streamlit tab handlers
that wire them together (split/extract tab, reorder/delete tab, rotate tab,
encrypt tab).  Python strings are embedded as `List Char` / `String`,
Python `int` values as `Int`, page index sets as duplicate-free lists, and
raised `ValueError` exceptions as an explicit error type `ParseErr` with one
constructor per raise site. -/

/-- The ASCII whitespace characters matched by the Python regex class `\s` and
by `str.strip()`: space, tab, newline, carriage return, vertical tab,
form feed. -/
def pySpace (c : Char) : Bool :=
  c = ' ' || c = '\t' || c = '\n' || c = '\r' || c = '\x0b' || c = '\x0c'

/-- A separator character of the selection grammar: the regex `[,\s]`
used in `re.split(r"[,\s]+", ...)` in `parse_page_ranges` / `parse_reorder`. -/
def isSepChar (c : Char) : Bool :=
  c = ',' || pySpace c

/-- Python `str.strip()`: remove leading and trailing whitespace. -/
def pyStrip (cs : List Char) : List Char :=
  ((cs.dropWhile pySpace).reverse.dropWhile pySpace).reverse

/-- `re.split(r"[,\s]+", s)`: cut `s` at every separator character.  A run of
`k` consecutive separators produces `k - 1` empty tokens between the cuts
(plus empty tokens at the ends); the callers skip empty tokens, which
collapses separator runs exactly as the `+` in the regex does. -/
def splitTokens (cs : List Char) : List (List Char) :=
  cs.foldr
    (fun c acc =>
      if isSepChar c then [] :: acc
      else
        match acc with
        | [] => [[c]]
        | t :: ts => (c :: t) :: ts)
    [[]]

/-- Value of a list of decimal digit characters. -/
def digitsToNat (cs : List Char) : Nat :=
  cs.foldl (fun n c => 10 * n + (c.toNat - 48)) 0

/-- Python `int(tok)` on a whitespace-free token: an optional sign followed
by one or more decimal digits; `none` models the raised `ValueError`.
(Python additionally accepts underscore digit-group separators, which no
selection token in this grammar meaningfully uses and which are not
modelled.) -/
def pyInt (cs : List Char) : Option Int :=
  match cs with
  | '-' :: rest =>
      if !rest.isEmpty && rest.all Char.isDigit then some (-(digitsToNat rest : Int)) else none
  | '+' :: rest =>
      if !rest.isEmpty && rest.all Char.isDigit then some (digitsToNat rest : Int) else none
  | _ =>
      if !cs.isEmpty && cs.all Char.isDigit then some (digitsToNat cs : Int) else none

/-- Python `range(a, b)` (step `1`) over `Int`: the list `[a, a+1, …, b-1]`,
empty when `b ≤ a`. -/
def pyRangeAsc (a b : Int) : List Int :=
  (List.range (b - a).toNat).map (fun (k : ℕ) => a + (k : Int))

/-- Python `range(a, b, -1)` over `Int`: the list `[a, a-1, …, b+1]`,
empty when `a ≤ b`. -/
def pyRangeDown (a b : Int) : List Int :=
  (List.range (a - b).toNat).map (fun (k : ℕ) => a - (k : Int))

/-- `tok.split("-", 1)`: the part before the first hyphen and the part
after it. -/
def splitRangeTok (tok : List Char) : List Char × List Char :=
  (tok.takeWhile (fun c => c ≠ '-'), (tok.dropWhile (fun c => c ≠ '-')).drop 1)

/-- The errors raised by the two parsers, one constructor per raise site in
`app.py`:
* `rangeNotInt tok` — message 无效范围: a range token whose half does not
  parse as an integer (both parsers);
* `rangeOutOfRangeOrInvalid tok` — message 超出页码范围或无效: set mode, a
  range whose endpoint is out of `[1, max_page]` or which descends;
* `pageNotInt tok` — message 无效页码: set mode, a single token that is not
  an integer;
* `pageOutOfRange p` — message 页码超出范围: a single page outside
  `[1, max_page]` (both parsers);
* `seqRangeOutOfRange tok` — message 超出页码范围: sequence mode, a range
  endpoint out of `[1, max_page]`;
* `intError tok` — the uncaught `ValueError` escaping the bare `int(tok)`
  call in `parse_reorder`. -/
inductive ParseErr where
  | rangeNotInt (tok : String)
  | rangeOutOfRangeOrInvalid (tok : String)
  | pageNotInt (tok : String)
  | pageOutOfRange (p : Int)
  | seqRangeOutOfRange (tok : String)
  | intError (tok : String)
  deriving DecidableEq, Repr

instance exceptDecEq {ε α : Type} [DecidableEq ε] [DecidableEq α] :
    DecidableEq (Except ε α) := fun x y =>
  match x, y with
  | .ok a, .ok b => decidable_of_iff (a = b) (by simp)
  | .error e, .error f => decidable_of_iff (e = f) (by simp)
  | .ok _, .error _ => isFalse (by simp)
  | .error _, .ok _ => isFalse (by simp)

/-- Python `set.add`: mathematical-set insertion, modelled on a
duplicate-free list — a member is not inserted twice. -/
def pySetAdd (pages : List ℕ) (p : ℕ) : List ℕ :=
  if pages.contains p then pages else pages ++ [p]

/-- One loop iteration of `parse_page_ranges`: process token `tok` against
the accumulated page set.  Empty tokens are skipped (`if not tok: continue`). -/
def parse_page_ranges_token (max_page : ℕ) (pages : List ℕ) (tok : List Char) :
    Except ParseErr (List ℕ) :=
  if tok.isEmpty then .ok pages
  else if tok.contains '-' then
    let ab := splitRangeTok tok
    match pyInt ab.1, pyInt ab.2 with
    | some start, some stop =>
        if start < 1 ∨ stop < 1 ∨ start > (max_page : Int) ∨ stop > (max_page : Int) ∨
            start > stop then
          .error (.rangeOutOfRangeOrInvalid (String.mk tok))
        else
          .ok (((pyRangeAsc (start - 1) stop).map Int.toNat).foldl pySetAdd pages)
    | _, _ => .error (.rangeNotInt (String.mk tok))
  else
    match pyInt tok with
    | some p =>
        if p < 1 ∨ p > (max_page : Int) then .error (.pageOutOfRange p)
        else .ok (pySetAdd pages (p - 1).toNat)
    | none => .error (.pageNotInt (String.mk tok))

/-- `parse_page_ranges(ranges_str, max_page)` (set mode, `app.py` lines
21–53): split the stripped input on `[,\s]+`, accumulate 0-based indices
into a set, return them sorted ascending (`sorted(pages)`). -/
def parse_page_ranges (ranges_str : String) (max_page : ℕ) :
    Except ParseErr (List ℕ) :=
  let stripped := pyStrip ranges_str.data
  if stripped.isEmpty then .ok []
  else do
    let pages ← (splitTokens stripped).foldlM (parse_page_ranges_token max_page) ([] : List ℕ)
    pure (pages.insertionSort (· ≤ ·))

/-- Expansion of an in-bounds range `start-stop` in `parse_reorder`:
`range(start-1, end)` ascending when `start ≤ end`, and
`range(start-1, end-2, -1)` descending when `start > end`. -/
def reorder_range_expand (start stop : Int) : List ℕ :=
  if start ≤ stop then (pyRangeAsc (start - 1) stop).map Int.toNat
  else (pyRangeDown (start - 1) (stop - 2)).map Int.toNat

/-- One loop iteration of `parse_reorder`: the list of 0-based indices the
token `tok` contributes, or the error it raises. -/
def parse_reorder_token (max_page : ℕ) (tok : List Char) :
    Except ParseErr (List ℕ) :=
  if tok.isEmpty then .ok []
  else if tok.contains '-' then
    let ab := splitRangeTok tok
    match pyInt ab.1, pyInt ab.2 with
    | some start, some stop =>
        if start < 1 ∨ stop < 1 ∨ start > (max_page : Int) ∨ stop > (max_page : Int) then
          .error (.seqRangeOutOfRange (String.mk tok))
        else .ok (reorder_range_expand start stop)
    | _, _ => .error (.rangeNotInt (String.mk tok))
  else
    match pyInt tok with
    | some p =>
        if p < 1 ∨ p > (max_page : Int) then .error (.pageOutOfRange p)
        else .ok [(p - 1).toNat]
    | none => .error (.intError (String.mk tok))

/-- The token loop of `parse_reorder`: concatenate the expansion of each token in
token order, stopping at the first raised error. -/
def parse_reorder_go (max_page : ℕ) : List (List Char) → Except ParseErr (List ℕ)
  | [] => .ok []
  | tok :: toks => do
    let e ← parse_reorder_token max_page tok
    let rest ← parse_reorder_go max_page toks
    pure (e ++ rest)

/-- `parse_reorder(ranges_str, max_page)` (sequence mode, `app.py` lines
55–84): split the stripped input on `[,\s]+` and concatenate the 0-based
expansions of the tokens in order, duplicates kept, descending ranges allowed. -/
def parse_reorder (ranges_str : String) (max_page : ℕ) :
    Except ParseErr (List ℕ) :=
  let stripped := pyStrip ranges_str.data
  if stripped.isEmpty then .ok []
  else parse_reorder_go max_page (splitTokens stripped)

/-- An abstract PDF page: an opaque content identifier plus the accumulated
rotation angle stored in the `/Rotate` entry of the page. -/
structure PdfPage where
  content : ℕ
  rot : ℤ
  deriving DecidableEq, Repr

/-- The pypdf method `page.rotate(angle)`: add `angle` to the current
rotation of the page. -/
def pageRotate (p : PdfPage) (angle : ℤ) : PdfPage :=
  { p with rot := p.rot + angle }

/-- `rotate_pages(pdf_bytes, rotate_map)` (`app.py` lines 118–131): every
page is passed through in order; a page whose index is mapped to 90, 180 or
270 is rotated by that angle, any other page (unmapped, or mapped to a
different angle) is added unchanged. -/
def rotate_pages (pages : List PdfPage) (rotate_map : ℕ → Option ℤ) : List PdfPage :=
  pages.enum.map (fun q =>
    match rotate_map q.1 with
    | some angle =>
        if angle = 90 ∨ angle = 180 ∨ angle = 270 then pageRotate q.2 angle else q.2
    | none => q.2)

/-- The kept indices of `delete_pages`:
`[i for i in range(len(reader.pages)) if i not in set(page_indices)]`. -/
def delete_keep (num_pages : ℕ) (page_indices : List ℕ) : List ℕ :=
  (List.range num_pages).filter (fun i => !page_indices.contains i)

/-- `delete_pages(pdf_bytes, page_indices)` (`app.py` lines 107–116): keep
every page whose index is not in the given set, in original order. -/
def delete_pages (pages : List PdfPage) (page_indices : List ℕ) : List PdfPage :=
  (delete_keep pages.length page_indices).filterMap (fun i => pages[i]?)

/-- The result of `encrypt_pdf`: the copied pages plus the two passwords
passed to `writer.encrypt`. -/
structure EncryptedPdf where
  pages : List PdfPage
  user_pwd : String
  owner_pwd : String
  deriving DecidableEq, Repr

/-- `encrypt_pdf(pdf_bytes, user_pwd, owner_pwd=None, ...)` (`app.py` lines
133–147): all pages are copied and `writer.encrypt(user_pwd, owner_pwd or
user_pwd)` is called — a `None` or empty owner password falls back to the
user password. -/
def encrypt_pdf (pages : List PdfPage) (user_pwd : String) (owner_pwd : Option String) :
    EncryptedPdf :=
  { pages := pages
    user_pwd := user_pwd
    owner_pwd :=
      match owner_pwd with
      | some o => if o = "" then user_pwd else o
      | none => user_pwd }

/-- Outcome of a Streamlit tab button handler: it either shows a parse error
(`st.error`) and produces nothing, or warns and produces nothing, or offers
an output document assembled from the listed source-page indices. -/
inductive TabResult where
  | parseError (e : ParseErr)
  | warned
  | exported (plan : List ℕ)
  deriving DecidableEq, Repr

/-- The extract button of the split/extract tab (`app.py` lines 292–302):
parse the spec, warn when the selection is empty, otherwise export the
selected pages. -/
def split_tab_extract (n : ℕ) (ranges_str : String) : TabResult :=
  match parse_page_ranges ranges_str n with
  | .error e => .parseError e
  | .ok idxs => if idxs = [] then .warned else .exported idxs

/-- The delete button of the split/extract tab (`app.py` lines 304–314):
parse the spec, warn when the selection is empty, otherwise export the
complement of the selection (`delete_pages`). -/
def split_tab_delete (n : ℕ) (ranges_str : String) : TabResult :=
  match parse_page_ranges ranges_str n with
  | .error e => .parseError e
  | .ok idxs => if idxs = [] then .warned else .exported (delete_keep n idxs)

/-- The rotate tab handler (`app.py` lines 382–392): parse the page set (a
parse error aborts), build the rotation map sending every parsed index to
`angle` (the dict comprehension over `idxs`), and rotate.  An empty selection only warns and still exports. -/
def rotate_tab (n : ℕ) (angle : ℤ) (pages_str : String) (pages : List PdfPage) :
    Except ParseErr (List PdfPage) :=
  match parse_page_ranges pages_str n with
  | .error e => .error e
  | .ok idxs =>
      .ok (rotate_pages pages (fun i => if idxs.contains i then some angle else none))

/-- Outcome of the reorder/delete tab (`app.py` lines 328–366): the parse
errors shown (`st.error`), whether the nothing-to-export warning fired, and
the exported index plan when a document was produced. -/
structure ReorderResult where
  errors : List ParseErr
  warnedEmpty : Bool
  exported : Option (List ℕ)
  deriving DecidableEq, Repr

/-- `del_str.replace(",", " ")`. -/
def pyReplaceCommaSpace (s : String) : String :=
  String.mk (s.data.map (fun c => if c = ',' then ' ' else c))

/-- The final step of the reorder/delete tab (`app.py` lines 357–366): an
empty final plan warns (没有可导出的页面) and exports nothing; otherwise
the pages at the indices of the plan are exported. -/
def reorder_export (errors : List ParseErr) (final_idxs : List ℕ) : ReorderResult :=
  if final_idxs = [] then
    { errors := errors, warnedEmpty := true, exported := none }
  else
    { errors := errors, warnedEmpty := false, exported := some final_idxs }

/-- The reorder/delete tab handler (`app.py` lines 328–366).  A delete-spec
parse error is shown but leaves the delete set empty; an order-spec parse
error is shown but falls back to the delete-complement plan
(`final_idxs = after_delete_idxs`); an empty final plan warns instead of
exporting. -/
def reorder_delete_tab (n2 : ℕ) (del_str order_str : String) : ReorderResult :=
  let del_parse : List ParseErr × List ℕ :=
    if (pyStrip del_str.data).isEmpty then ([], [])
    else
      match parse_page_ranges (pyReplaceCommaSpace del_str) n2 with
      | .ok l => ([], l)
      | .error e => ([e], [])
  let after_delete_idxs := (List.range n2).filter (fun i => !del_parse.2.contains i)
  let order_parse : List ParseErr × List ℕ :=
    if (pyStrip order_str.data).isEmpty then ([], after_delete_idxs)
    else
      match parse_reorder order_str n2 with
      | .ok re_idx => ([], re_idx.filter (fun i => after_delete_idxs.contains i))
      | .error e => ([e], after_delete_idxs)
  reorder_export (del_parse.1 ++ order_parse.1) order_parse.2

/-- The error of the guard in the encrypt tab. -/
inductive EncErr where
  | missingUserPassword
  deriving DecidableEq, Repr

/-- The encrypt tab handler (`app.py` lines 409–415): an empty user password
is rejected; otherwise `encrypt_pdf` is called with `owner_pwd or None` as
the owner password. -/
def encrypt_tab (pages : List PdfPage) (user_pwd owner_pwd : String) :
    Except EncErr EncryptedPdf :=
  if user_pwd = "" then .error .missingUserPassword
  else .ok (encrypt_pdf pages user_pwd (if owner_pwd = "" then none else some owner_pwd))

lemma except_bind_error {ε α β : Type} (e : ε) (f : α → Except ε β) :
    (Except.error e >>= f) = Except.error e := rfl

lemma except_bind_ok {ε α β : Type} (a : α) (f : α → Except ε β) :
    (Except.ok a >>= f) = f a := rfl

lemma mem_pyRangeAsc {a b z : Int} (h : z ∈ pyRangeAsc a b) : a ≤ z ∧ z < b := by
  simp only [pyRangeAsc, List.mem_map, List.mem_range] at h
  obtain ⟨k, hk, rfl⟩ := h
  omega

lemma mem_pySetAdd {pages : List ℕ} {p x : ℕ} (h : x ∈ pySetAdd pages p) :
    x ∈ pages ∨ x = p := by
  unfold pySetAdd at h
  split at h
  · exact Or.inl h
  · simpa using h

lemma pySetAdd_nodup {pages : List ℕ} {p : ℕ} (h : pages.Nodup) :
    (pySetAdd pages p).Nodup := by
  unfold pySetAdd
  split
  · exact h
  · next hc =>
      have hc' : p ∉ pages := by simpa [List.contains, List.elem_iff] using hc
      simpa [List.nodup_append] using ⟨h, hc'⟩

lemma mem_foldl_pySetAdd {l pages : List ℕ} {x : ℕ}
    (h : x ∈ l.foldl pySetAdd pages) : x ∈ pages ∨ x ∈ l := by
  induction l generalizing pages with
  | nil => exact Or.inl h
  | cons a l ih =>
      simp only [List.foldl_cons] at h
      rcases ih h with h' | h'
      · rcases mem_pySetAdd h' with h'' | h''
        · exact Or.inl h''
        · exact Or.inr (by simp [h''])
      · exact Or.inr (List.mem_cons_of_mem _ h')

lemma foldl_pySetAdd_nodup {l pages : List ℕ} (h : pages.Nodup) :
    (l.foldl pySetAdd pages).Nodup := by
  induction l generalizing pages with
  | nil => exact h
  | cons a l ih => exact ih (pySetAdd_nodup h)

/-- The set-mode token step preserves the accumulator invariant: every
accumulated index is `< max_page` and the accumulator has no duplicates. -/
lemma parse_page_ranges_token_invariant {max_page : ℕ} {pages pages' : List ℕ}
    {tok : List Char}
    (h : parse_page_ranges_token max_page pages tok = .ok pages')
    (hinv : (∀ x ∈ pages, x < max_page) ∧ pages.Nodup) :
    (∀ x ∈ pages', x < max_page) ∧ pages'.Nodup := by
  unfold parse_page_ranges_token at h
  split at h
  · cases h; exact hinv
  · split at h
    · rcases ha : pyInt (splitRangeTok tok).1 with _ | start <;>
        rcases hb : pyInt (splitRangeTok tok).2 with _ | stop <;>
        simp only [ha, hb] at h <;> try cases h
      split at h
      · cases h
      · next hcond =>
          cases h
          push_neg at hcond
          obtain ⟨h1, h2, h3, h4, h5⟩ := hcond
          refine ⟨?_, foldl_pySetAdd_nodup hinv.2⟩
          intro x hx
          rcases mem_foldl_pySetAdd hx with hx' | hx'
          · exact hinv.1 x hx'
          · simp only [List.mem_map] at hx'
            obtain ⟨z, hz, rfl⟩ := hx'
            have := mem_pyRangeAsc hz
            omega
    · rcases hp : pyInt tok with _ | p <;> simp only [hp] at h
      · cases h
      · split at h
        · cases h
        · next hcond =>
            cases h
            push_neg at hcond
            refine ⟨?_, pySetAdd_nodup hinv.2⟩
            intro x hx
            rcases mem_pySetAdd hx with hx' | hx'
            · exact hinv.1 x hx'
            · omega

/-- The token fold of `parse_page_ranges` preserves the accumulator
invariant. -/
lemma parse_page_ranges_fold_invariant {max_page : ℕ} :
    ∀ (toks : List (List Char)) (pages pages' : List ℕ),
      toks.foldlM (parse_page_ranges_token max_page) pages = .ok pages' →
      (∀ x ∈ pages, x < max_page) ∧ pages.Nodup →
      (∀ x ∈ pages', x < max_page) ∧ pages'.Nodup := by
  intro toks
  induction toks with
  | nil =>
      intro pages pages' h hinv
      simp only [List.foldlM_nil] at h
      cases h
      exact hinv
  | cons tok toks ih =>
      intro pages pages' h hinv
      simp only [List.foldlM_cons] at h
      cases hstep : parse_page_ranges_token max_page pages tok with
      | error e =>
          rw [hstep, except_bind_error] at h
          cases h
      | ok mid =>
          rw [hstep, except_bind_ok] at h
          exact ih mid pages' h (parse_page_ranges_token_invariant hstep hinv)

/-- C1. Every index list accepted by `parse_page_ranges` (set mode) is
strictly ascending, has no duplicates, and each element lies in
`[0, max_page)`. -/
theorem parse_page_ranges_sorted_nodup_bounded
    (s : String) (max_page : ℕ) (l : List ℕ)
    (h : parse_page_ranges s max_page = .ok l) :
    l.Sorted (· < ·) ∧ l.Nodup ∧ ∀ x ∈ l, x < max_page := by
  simp only [parse_page_ranges] at h
  split at h
  · cases h
    exact ⟨List.sorted_nil, List.nodup_nil, by simp⟩
  · cases hfold : (splitTokens (pyStrip s.data)).foldlM
        (parse_page_ranges_token max_page) ([] : List ℕ) with
    | error e =>
        rw [hfold, except_bind_error] at h
        cases h
    | ok pages =>
        rw [hfold, except_bind_ok] at h
        cases h
        have hinv := parse_page_ranges_fold_invariant _ [] pages hfold
          ⟨by simp, List.nodup_nil⟩
        have hperm := List.perm_insertionSort (· ≤ ·) pages
        have hnodup : (pages.insertionSort (· ≤ ·)).Nodup :=
          hperm.nodup_iff.mpr hinv.2
        have hsortedLe : (pages.insertionSort (· ≤ ·)).Sorted (· ≤ ·) :=
          List.sorted_insertionSort (· ≤ ·) pages
        refine ⟨hsortedLe.lt_of_le hnodup, hnodup, ?_⟩
        intro x hx
        exact hinv.1 x (hperm.mem_iff.mp hx)

/-- Witness for `parse_page_ranges_sorted_nodup_bounded` at the concrete
accepted input `"1-3,5,7-9"` with `max_page = 9`. -/
theorem parse_page_ranges_sorted_nodup_bounded_witness :
    ([0, 1, 2, 4, 6, 7, 8] : List ℕ).Sorted (· < ·) ∧
      ([0, 1, 2, 4, 6, 7, 8] : List ℕ).Nodup ∧
      ∀ x ∈ ([0, 1, 2, 4, 6, 7, 8] : List ℕ), x < 9 :=
  parse_page_ranges_sorted_nodup_bounded "1-3,5,7-9" 9 _ (by decide)

/-- C2 (counterexample). The specification example claims
`parseSet("1-3,5,7-9", 9) == [0,1,2,3,4,6,7,8]`, but the code returns
`[0,1,2,4,6,7,8]`: the 1-based pages 1,2,3,5,7,8,9 convert to the 0-based
indices 0,1,2,4,6,7,8 — index `3` (page 4) is not selected. -/
theorem parse_page_ranges_example_refuted :
    parse_page_ranges "1-3,5,7-9" 9 ≠ .ok [0, 1, 2, 3, 4, 6, 7, 8] ∧
      parse_page_ranges "1-3,5,7-9" 9 = .ok [0, 1, 2, 4, 6, 7, 8] := by
  exact ⟨by decide, by decide⟩

/-- C2 (amended). `parse_page_ranges "1-3,5,7-9" 9` returns exactly
`[0, 1, 2, 4, 6, 7, 8]`. -/
theorem parse_page_ranges_example :
    parse_page_ranges "1-3,5,7-9" 9 = .ok [0, 1, 2, 4, 6, 7, 8] := by decide

/-- C3. Sequence mode permits a descending range `A-B` with `A > B` and
expands it descending — the reverse of the ascending 0-based block
`[B-1, …, A-1]` — preserving token order with no deduplication; in
particular `parse_reorder "10-7" 10 = [9,8,7,6]` and
`parse_reorder "1-3,5-4" 5 = [0,1,2,4,3]`. -/
theorem parse_reorder_descending (a b : ℕ) (h1 : 1 ≤ b) (h2 : b < a) :
    reorder_range_expand (a : Int) (b : Int) = (List.range' (b - 1) (a - b + 1)).reverse
    ∧ parse_reorder "10-7" 10 = .ok [9, 8, 7, 6]
    ∧ parse_reorder "1-3,5-4" 5 = .ok [0, 1, 2, 4, 3] := by
  refine ⟨?_, by decide, by decide⟩
  unfold reorder_range_expand
  rw [if_neg (by omega : ¬ ((a : Int) ≤ (b : Int)))]
  unfold pyRangeDown
  rw [List.reverse_range', List.map_map]
  have hn : (((a : Int) - 1) - ((b : Int) - 2)).toNat = a - b + 1 := by omega
  rw [hn]
  refine List.map_congr_left ?_
  intro k hk
  simp only [List.mem_range] at hk
  simp only [Function.comp_apply]
  omega

/-- Witness for `parse_reorder_descending` at `A = 10`, `B = 7`. -/
theorem parse_reorder_descending_witness :
    reorder_range_expand ((10 : ℕ) : Int) ((7 : ℕ) : Int) =
        (List.range' (7 - 1) (10 - 7 + 1)).reverse
      ∧ parse_reorder "10-7" 10 = .ok [9, 8, 7, 6]
      ∧ parse_reorder "1-3,5-4" 5 = .ok [0, 1, 2, 4, 3] :=
  parse_reorder_descending 10 7 (by decide) (by decide)

/-- C4. In set mode a descending range `A-B` (`A > B`) raises the
range error kind (`rangeOutOfRangeOrInvalid`, message
`"超出页码范围或无效"`), which is a distinct error kind from
`pageOutOfRange` (`"页码超出范围"`); a single value outside
`[1, max_page]` raises `pageOutOfRange` carrying the offending value, as
`parse_page_ranges "0" 5` and `parse_page_ranges "6" 5` show. -/
theorem parse_page_ranges_error_kinds
    (max_page : ℕ) (pages : List ℕ) (tok : List Char) (start stop : Int)
    (hne : tok.isEmpty = false) (hhy : tok.contains '-' = true)
    (ha : pyInt (splitRangeTok tok).1 = some start)
    (hb : pyInt (splitRangeTok tok).2 = some stop)
    (hdesc : stop < start) :
    parse_page_ranges_token max_page pages tok =
        .error (.rangeOutOfRangeOrInvalid (String.mk tok))
    ∧ (∀ (t : String) (p : Int),
        ParseErr.rangeOutOfRangeOrInvalid t ≠ ParseErr.pageOutOfRange p)
    ∧ (∀ (tok2 : List Char) (p : Int), tok2.isEmpty = false →
        tok2.contains '-' = false → pyInt tok2 = some p →
        (p < 1 ∨ (max_page : Int) < p) →
        parse_page_ranges_token max_page pages tok2 = .error (.pageOutOfRange p))
    ∧ parse_page_ranges "5-3" 9 = .error (.rangeOutOfRangeOrInvalid "5-3")
    ∧ parse_page_ranges "0" 5 = .error (.pageOutOfRange 0)
    ∧ parse_page_ranges "6" 5 = .error (.pageOutOfRange 6) := by
  refine ⟨?_, ?_, ?_, by decide, by decide, by decide⟩
  · simp only [parse_page_ranges_token, hne, hhy, ha, hb]
    rw [if_pos (Or.inr (Or.inr (Or.inr (Or.inr hdesc))))]
    simp
  · intro t p hcontra
    cases hcontra
  · intro tok2 p hne2 hhy2 hp hout
    simp only [parse_page_ranges_token, hne2, hhy2, hp]
    rw [if_pos (by omega : p < 1 ∨ p > (max_page : Int))]
    simp

/-- Witness for `parse_page_ranges_error_kinds` at the concrete token
`"5-3"` with `max_page = 9`. -/
theorem parse_page_ranges_error_kinds_witness :
    parse_page_ranges_token 9 [] ['5', '-', '3'] =
        .error (.rangeOutOfRangeOrInvalid (String.mk ['5', '-', '3']))
    ∧ (∀ (t : String) (p : Int),
        ParseErr.rangeOutOfRangeOrInvalid t ≠ ParseErr.pageOutOfRange p)
    ∧ (∀ (tok2 : List Char) (p : Int), tok2.isEmpty = false →
        tok2.contains '-' = false → pyInt tok2 = some p →
        (p < 1 ∨ (9 : Int) < p) →
        parse_page_ranges_token 9 [] tok2 = .error (.pageOutOfRange p))
    ∧ parse_page_ranges "5-3" 9 = .error (.rangeOutOfRangeOrInvalid "5-3")
    ∧ parse_page_ranges "0" 5 = .error (.pageOutOfRange 0)
    ∧ parse_page_ranges "6" 5 = .error (.pageOutOfRange 6) :=
  parse_page_ranges_error_kinds 9 [] ['5', '-', '3'] 5 3
    (by decide) (by decide) (by decide) (by decide) (by decide)
lemma filterMap_eq_map_of_forall_some {α β : Type _} {f : α → Option β} {g : α → β}
    {l : List α} (h : ∀ x ∈ l, f x = some (g x)) : l.filterMap f = l.map g := by
  induction l with
  | nil => rfl
  | cons a l ih =>
      rw [List.filterMap_cons, h a (by simp), List.map_cons,
        ih (fun x hx => h x (by simp [hx]))]

/-- C9. `rotate_pages` passes every page of the source through in order:
the output has the same length, and the page at each index is the original
page rotated by the mapped angle exactly when the rotation map assigns it an
angle in 90/180/270; an unmapped page, or one mapped to any other
angle, is passed through untouched (never an error). -/
theorem rotate_pages_passthrough (pages : List PdfPage) (rotate_map : ℕ → Option ℤ) :
    (rotate_pages pages rotate_map).length = pages.length
    ∧ ∀ i : ℕ, (rotate_pages pages rotate_map)[i]? =
        (pages[i]?).map (fun p =>
          match rotate_map i with
          | some angle =>
              if angle = 90 ∨ angle = 180 ∨ angle = 270 then pageRotate p angle else p
          | none => p) := by
  constructor
  · simp [rotate_pages]
  · intro i
    simp only [rotate_pages, List.getElem?_map, List.getElem?_enum]
    cases pages[i]? with
    | none => rfl
    | some p => rfl

/-- C10. `delete_pages` depends only on the set of indices it is
given — two index lists with the same membership yield the same output —
and the kept pages appear in the output in ascending original-document
order: the output is the original page sequence with the pages at selected
indices filtered out. -/
theorem delete_pages_set_semantics :
    (∀ (pages : List PdfPage) (idx1 idx2 : List ℕ),
        (∀ i, idx1.contains i = idx2.contains i) →
        delete_pages pages idx1 = delete_pages pages idx2)
    ∧ (∀ (num_pages : ℕ) (page_indices : List ℕ),
        (delete_keep num_pages page_indices).Sorted (· < ·))
    ∧ ∀ (pages : List PdfPage) (page_indices : List ℕ),
        delete_pages pages page_indices =
          (pages.enum.filter (fun q => !page_indices.contains q.1)).map Prod.snd := by
  have key : ∀ (pages : List PdfPage) (page_indices : List ℕ),
      delete_pages pages page_indices =
        (pages.enum.filter (fun q => !page_indices.contains q.1)).map Prod.snd := by
    intro pages idxs
    unfold delete_pages delete_keep
    rw [← List.enum_map_fst pages, List.filter_map, List.filterMap_map]
    exact filterMap_eq_map_of_forall_some (fun x hx =>
      List.mem_enum_iff_getElem?.mp (List.mem_of_mem_filter hx))
  refine ⟨?_, ?_, key⟩
  · intro pages idx1 idx2 hiff
    rw [key, key]
    congr 1
    refine List.filter_congr ?_
    intro x _
    rw [hiff]
  · intro n idxs
    exact (List.sorted_lt_range n).filter _

/-- Witness for `delete_pages_set_semantics`: the membership hypothesis of
the first conjunct discharged at the concrete lists `[2, 1, 1]` and
`[1, 2]`. -/
theorem delete_pages_set_semantics_witness :
    delete_pages [⟨0, 0⟩, ⟨1, 0⟩, ⟨2, 0⟩] [2, 1, 1] =
      delete_pages [⟨0, 0⟩, ⟨1, 0⟩, ⟨2, 0⟩] [1, 2] :=
  delete_pages_set_semantics.1 [⟨0, 0⟩, ⟨1, 0⟩, ⟨2, 0⟩] [2, 1, 1] [1, 2] (by
    intro i
    simp only [List.contains_eq_any_beq, List.any_cons, List.any_nil]
    cases h1 : (i == 1) <;> cases h2 : (i == 2) <;> simp [h1, h2])

/-- C8. Encrypt fails with the missing-user-password error when the
user password is empty; when the owner password is unset or empty the
output is encrypted with the owner password equal to the user password. -/
theorem encrypt_password_policy (pages : List PdfPage) (user_pwd : String)
    (h : user_pwd ≠ "") :
    (∀ owner_pwd : String,
        encrypt_tab pages "" owner_pwd = .error .missingUserPassword)
    ∧ encrypt_tab pages user_pwd "" =
        .ok { pages := pages, user_pwd := user_pwd, owner_pwd := user_pwd }
    ∧ (encrypt_pdf pages user_pwd none).owner_pwd = user_pwd
    ∧ (encrypt_pdf pages user_pwd (some "")).owner_pwd = user_pwd := by
  refine ⟨?_, ?_, rfl, by simp [encrypt_pdf]⟩
  · intro o
    simp [encrypt_tab]
  · simp [encrypt_tab, encrypt_pdf, h]

/-- Witness for `encrypt_password_policy` at the nonempty user password
`"a"`. -/
theorem encrypt_password_policy_witness :
    (∀ owner_pwd : String,
        encrypt_tab [] "" owner_pwd = .error .missingUserPassword)
    ∧ encrypt_tab [] "a" "" = .ok { pages := [], user_pwd := "a", owner_pwd := "a" }
    ∧ (encrypt_pdf [] "a" none).owner_pwd = "a"
    ∧ (encrypt_pdf [] "a" (some "")).owner_pwd = "a" :=
  encrypt_password_policy [] "a" (by decide)

/-- C5. The reorder/delete tab builds its final plan as
`parse_reorder(order)` filtered to the indices surviving
`parse_page_ranges(delete)` — entries referencing deleted pages are
silently skipped, not errors — falls back to the delete-complement in
ascending original order when the order spec is empty, and on the concrete
example of the specification (5 pages, delete `"2"`, order `"1-5"`) exports
`[0, 2, 3, 4]`. -/
theorem reorder_delete_tab_plan
    (n : ℕ) (del_str order_str : String) (ds seq : List ℕ)
    (hdel_ne : (pyStrip del_str.data).isEmpty = false)
    (hds : parse_page_ranges (pyReplaceCommaSpace del_str) n = .ok ds)
    (hord_ne : (pyStrip order_str.data).isEmpty = false)
    (hseq : parse_reorder order_str n = .ok seq) :
    ((reorder_delete_tab n del_str order_str).errors = []
      ∧ (reorder_delete_tab n del_str order_str).exported =
          (if seq.filter (fun i => (delete_keep n ds).contains i) = [] then none
           else some (seq.filter (fun i => (delete_keep n ds).contains i))))
    ∧ (∀ order2 : String, (pyStrip order2.data).isEmpty = true →
        (reorder_delete_tab n del_str order2).exported =
          (if delete_keep n ds = [] then none else some (delete_keep n ds)))
    ∧ reorder_delete_tab 5 "2" "1-5" =
        { errors := [], warnedEmpty := false, exported := some [0, 2, 3, 4] } := by
  refine ⟨?_, ?_, by decide⟩
  · simp only [reorder_delete_tab, reorder_export, delete_keep, hdel_ne, hds, hord_ne,
      hseq, Bool.false_eq_true, if_false]
    split <;> simp_all
  · intro order2 h2
    simp only [reorder_delete_tab, reorder_export, delete_keep, hdel_ne, hds, h2,
      Bool.false_eq_true, if_false, if_true]
    split <;> simp_all

/-- Witness for `reorder_delete_tab_plan` at the concrete example of the specification:
5 pages, delete spec `"2"`, order spec `"1-5"`. -/
theorem reorder_delete_tab_plan_witness :
    (((reorder_delete_tab 5 "2" "1-5").errors = []
      ∧ (reorder_delete_tab 5 "2" "1-5").exported =
          (if [0, 1, 2, 3, 4].filter (fun i => (delete_keep 5 [1]).contains i) = []
           then none
           else some ([0, 1, 2, 3, 4].filter (fun i => (delete_keep 5 [1]).contains i))))
    ∧ (∀ order2 : String, (pyStrip order2.data).isEmpty = true →
        (reorder_delete_tab 5 "2" order2).exported =
          (if delete_keep 5 [1] = [] then none else some (delete_keep 5 [1])))
    ∧ reorder_delete_tab 5 "2" "1-5" =
        { errors := [], warnedEmpty := false, exported := some [0, 2, 3, 4] }) :=
  reorder_delete_tab_plan 5 "2" "1-5" [1] [0, 1, 2, 3, 4]
    (by decide) (by decide) (by decide) (by decide)

/-- C6 (counterexample). A parse error in the order spec of the
reorder/delete tab does not abort the operation: with 5 pages, an empty
delete spec and the unparsable order spec `"abc"`, the handler records the
error yet still exports the default delete-complement plan
`[0, 1, 2, 3, 4]`. -/
theorem reorder_parse_error_still_exports :
    (reorder_delete_tab 5 "" "abc").errors = [.intError "abc"]
    ∧ (reorder_delete_tab 5 "" "abc").exported = some [0, 1, 2, 3, 4] :=
  ⟨by decide, by decide⟩

/-- C6 (amended). A parse error aborts the extract, delete and rotate
handlers, which then produce no output; the reorder/delete handler instead
reports the error and substitutes a default plan, in every combination:
a delete-spec parse error falls back to an empty delete set (so the
complement is the full page range), an order-spec parse error falls back
to the delete-complement — against the parsed delete set when the delete
spec parsed, against the full range when it was empty or also failed —
and the handler still exports an output document whenever that fallback
plan is nonempty. -/
theorem parse_error_propagation
    (n : ℕ) (s : String) (e : ParseErr)
    (h : parse_page_ranges s n = .error e) :
    split_tab_extract n s = .parseError e
    ∧ split_tab_delete n s = .parseError e
    ∧ (∀ (angle : ℤ) (pages : List PdfPage), rotate_tab n angle s pages = .error e)
    ∧ (∀ (del order : String) (e2 : ParseErr),
        (pyStrip del.data).isEmpty = false →
        parse_page_ranges (pyReplaceCommaSpace del) n = .error e2 →
        (pyStrip order.data).isEmpty = true →
        (reorder_delete_tab n del order).errors = [e2]
        ∧ (reorder_delete_tab n del order).exported =
            (if n = 0 then none else some (List.range n)))
    ∧ (∀ (del order : String) (e2 e3 : ParseErr),
        (pyStrip del.data).isEmpty = false →
        parse_page_ranges (pyReplaceCommaSpace del) n = .error e2 →
        (pyStrip order.data).isEmpty = false →
        parse_reorder order n = .error e3 →
        (reorder_delete_tab n del order).errors = [e2, e3]
        ∧ (reorder_delete_tab n del order).exported =
            (if n = 0 then none else some (List.range n)))
    ∧ (∀ (del order : String) (e2 : ParseErr),
        (pyStrip del.data).isEmpty = true →
        (pyStrip order.data).isEmpty = false →
        parse_reorder order n = .error e2 →
        (reorder_delete_tab n del order).errors = [e2]
        ∧ (reorder_delete_tab n del order).exported =
            (if n = 0 then none else some (List.range n)))
    ∧ (∀ (del order : String) (ds : List ℕ) (e2 : ParseErr),
        (pyStrip del.data).isEmpty = false →
        parse_page_ranges (pyReplaceCommaSpace del) n = .ok ds →
        (pyStrip order.data).isEmpty = false →
        parse_reorder order n = .error e2 →
        (reorder_delete_tab n del order).errors = [e2]
        ∧ (reorder_delete_tab n del order).exported =
            (if delete_keep n ds = [] then none
             else some (delete_keep n ds))) := by
  refine ⟨?_, ?_, ?_, ?_, ?_, ?_, ?_⟩
  · simp [split_tab_extract, h]
  · simp [split_tab_delete, h]
  · intro angle pages
    simp [rotate_tab, h]
  · intro del order e2 hdel herr hord
    simp only [reorder_delete_tab, reorder_export, delete_keep, hdel, herr, hord,
      Bool.false_eq_true, if_false, if_true]
    constructor
    · split <;> simp
    · split <;> simp_all [List.range_eq_nil]
  · intro del order e2 e3 hdel herr hord herr2
    simp only [reorder_delete_tab, reorder_export, delete_keep, hdel, herr, hord,
      herr2, Bool.false_eq_true, if_false, if_true]
    constructor
    · split <;> simp
    · split <;> simp_all [List.range_eq_nil]
  · intro del order e2 hdel hord herr
    simp only [reorder_delete_tab, reorder_export, delete_keep, hdel, hord, herr,
      Bool.false_eq_true, if_false, if_true]
    constructor
    · split <;> simp
    · split <;> simp_all [List.range_eq_nil]
  · intro del order ds e2 hdel hds hord herr
    simp only [reorder_delete_tab, reorder_export, delete_keep, hdel, hds, hord,
      herr, Bool.false_eq_true, if_false, if_true]
    constructor
    · split <;> simp
    · split <;> simp_all

/-- Witness for `parse_error_propagation` at the unparsable selection
`"abc"` with 5 pages. -/
theorem parse_error_propagation_witness :
    (split_tab_extract 5 "abc" = .parseError (.pageNotInt "abc")
    ∧ split_tab_delete 5 "abc" = .parseError (.pageNotInt "abc")
    ∧ (∀ (angle : ℤ) (pages : List PdfPage),
        rotate_tab 5 angle "abc" pages = .error (.pageNotInt "abc"))
    ∧ (∀ (del order : String) (e2 : ParseErr),
        (pyStrip del.data).isEmpty = false →
        parse_page_ranges (pyReplaceCommaSpace del) 5 = .error e2 →
        (pyStrip order.data).isEmpty = true →
        (reorder_delete_tab 5 del order).errors = [e2]
        ∧ (reorder_delete_tab 5 del order).exported =
            (if 5 = 0 then none else some (List.range 5)))
    ∧ (∀ (del order : String) (e2 e3 : ParseErr),
        (pyStrip del.data).isEmpty = false →
        parse_page_ranges (pyReplaceCommaSpace del) 5 = .error e2 →
        (pyStrip order.data).isEmpty = false →
        parse_reorder order 5 = .error e3 →
        (reorder_delete_tab 5 del order).errors = [e2, e3]
        ∧ (reorder_delete_tab 5 del order).exported =
            (if 5 = 0 then none else some (List.range 5)))
    ∧ (∀ (del order : String) (e2 : ParseErr),
        (pyStrip del.data).isEmpty = true →
        (pyStrip order.data).isEmpty = false →
        parse_reorder order 5 = .error e2 →
        (reorder_delete_tab 5 del order).errors = [e2]
        ∧ (reorder_delete_tab 5 del order).exported =
            (if 5 = 0 then none else some (List.range 5)))
    ∧ (∀ (del order : String) (ds : List ℕ) (e2 : ParseErr),
        (pyStrip del.data).isEmpty = false →
        parse_page_ranges (pyReplaceCommaSpace del) 5 = .ok ds →
        (pyStrip order.data).isEmpty = false →
        parse_reorder order 5 = .error e2 →
        (reorder_delete_tab 5 del order).errors = [e2]
        ∧ (reorder_delete_tab 5 del order).exported =
            (if delete_keep 5 ds = [] then none
             else some (delete_keep 5 ds)))) :=
  parse_error_propagation 5 "abc" (.pageNotInt "abc") (by decide)

/-- C7 (counterexample). Deleting every page does not report "nothing
to export": with 3 pages and the full selection `"1-3"` the delete button
exports the empty plan — a zero-page output document — instead of
warning. -/
theorem delete_all_pages_exports_empty :
    split_tab_delete 3 "1-3" = .exported [] ∧
      (TabResult.exported [] : TabResult) ≠ .warned :=
  ⟨by decide, by decide⟩

lemma reorder_export_exported_nonempty (errs : List ParseErr) (fi plan : List ℕ)
    (h : (reorder_export errs fi).exported = some plan) : plan ≠ [] := by
  unfold reorder_export at h
  by_cases hf : fi = []
  · rw [if_pos hf] at h
    cases h
  · rw [if_neg hf] at h
    cases h
    exact hf

/-- C7 (amended). An empty final plan is reported, and nothing
exported, by Extract (empty selection) and by the reorder/delete tab
(empty final plan); the Delete button, however, guards only on an empty
parsed selection — with a nonempty selection it always exports the
complement plan, which is empty exactly when every page was selected. -/
theorem empty_plan_policy
    (n : ℕ) (s : String) (idxs : List ℕ)
    (hok : parse_page_ranges s n = .ok idxs) (hne : idxs ≠ []) :
    (∀ (m : ℕ) (t : String) (plan : List ℕ),
        split_tab_extract m t = .exported plan → plan ≠ [])
    ∧ (∀ (m : ℕ) (d o : String) (plan : List ℕ),
        (reorder_delete_tab m d o).exported = some plan → plan ≠ [])
    ∧ split_tab_delete n s = .exported (delete_keep n idxs) := by
  refine ⟨?_, ?_, by simp [split_tab_delete, hok, hne]⟩
  · intro m t plan h
    unfold split_tab_extract at h
    cases hp : parse_page_ranges t m with
    | error e =>
        rw [hp] at h
        cases h
    | ok l =>
        rw [hp] at h
        dsimp only at h
        by_cases hl : l = []
        · rw [if_pos hl] at h
          cases h
        · rw [if_neg hl] at h
          cases h
          exact hl
  · intro m d o plan h
    simp only [reorder_delete_tab] at h
    exact reorder_export_exported_nonempty _ _ _ h

/-- Witness for `empty_plan_policy` at 3 pages with the full selection
`"1-3"` (whose delete-complement plan is empty). -/
theorem empty_plan_policy_witness :
    ((∀ (m : ℕ) (t : String) (plan : List ℕ),
        split_tab_extract m t = .exported plan → plan ≠ [])
    ∧ (∀ (m : ℕ) (d o : String) (plan : List ℕ),
        (reorder_delete_tab m d o).exported = some plan → plan ≠ [])
    ∧ split_tab_delete 3 "1-3" = .exported (delete_keep 3 [0, 1, 2])) :=
  empty_plan_policy 3 "1-3" [0, 1, 2] (by decide) (by decide)
